import Mathlib

/-!
Shallow embedding of `pkg/odo/cli/component/devfile.go` from the odo
repository: the devfile lifecycle orchestrator (Push, Log, Delete, Exec)
and the URL consistency checker.

External collaborators (manifest parser, validator, adapter factory,
component adapter, environment-info store, push-target flag, JSON-mode
flag) are modelled as explicit inputs: each invocation receives an
environment record carrying the results those collaborators would return.
Observable effects (adapter construction, adapter verb calls, event-sink
reports, run-mode persistence, warnings) are recorded in an event trace,
and process termination via os.Exit is distinguished from a normal return
by the `Outcome` type.
-/

namespace Odo

/-- Go `error` values, modelled by their message. -/
abbrev GoError := String

/-- Command kinds of devfile commands (`devfilev1.CommandGroupKind`). -/
inductive CommandKind where
  | Build
  | Run
  | Debug
  | Test
  deriving DecidableEq, Repr

/-- A devfile command (`devfilev1.Command`), reduced to the attributes the
orchestrator and resolver observe: its id/name, its group kind, and whether
its group marks it as the default for that kind. -/
structure DevCommand where
  name : String
  kind : CommandKind
  isDefault : Bool
  deriving DecidableEq, Repr

/-- The zero value `devfilev1.Command{}` that `DevfileComponentLog` compares
against with `reflect.DeepEqual`. -/
def emptyCommand : DevCommand := { name := "", kind := CommandKind.Build, isDefault := false }

/-- A parsed and validated devfile (`devObj`), reduced to its command list. -/
structure Devfile where
  commands : List DevCommand
  deriving DecidableEq, Repr

/-- URL kinds of `localConfigProvider.LocalURL`. Only `DOCKER` is compared
against by `warnIfURLSInvalid`; every other kind counts as a Kubernetes URL. -/
inductive URLKind where
  | DOCKER
  | ROUTE
  | INGRESS
  deriving DecidableEq, Repr

/-- A `localConfigProvider.LocalURL` record, reduced to the attributes the
URL checker observes. -/
structure LocalURL where
  name : String
  kind : URLKind
  deriving DecidableEq, Repr

/-- The platform context passed to the adapter factory: `nil` for the Docker
push target, `kubernetes.KubernetesContext{Namespace}` otherwise. -/
inductive PlatformContext where
  | docker
  | kubernetes (ns : String)
  deriving DecidableEq, Repr

/-- `envinfo` run modes. -/
inductive RunMode where
  | Run
  | Debug
  deriving DecidableEq, Repr

/-- The environment-specific info snapshot (`envinfo.EnvSpecificInfo`),
reduced to the accessors the orchestrator calls. -/
structure EnvInfo where
  name : String
  debugPort : Int
  deriving DecidableEq, Repr

/-- `common.PushParameters` as built by `devfilePushInner`. -/
structure PushParameters where
  Path : String
  IgnoredFiles : List String
  ForceBuild : Bool
  Show : Bool
  EnvSpecificInfo : EnvInfo
  DevfileBuildCmd : String
  DevfileRunCmd : String
  DevfileDebugCmd : String
  Debug : Bool
  DebugPort : Int
  deriving DecidableEq, Repr

/-- Observable effects of one orchestrator invocation, in program order. -/
inductive Event where
  | adapterConstructed (ctx : PlatformContext)
  | paramsBuilt (params : PushParameters)
  | urlsListed
  | warned (msg : String)
  | adapterPush (params : PushParameters)
  | adapterLog (follow : Bool) (command : DevCommand)
  | adapterDelete (labels : List (String × String)) (showProgress : Bool)
  | adapterExec (command : List String)
  | reportError (msg : GoError)
  | setRunMode (mode : RunMode)
  deriving DecidableEq, Repr

/-- How an invocation ends: `exited code` models `os.Exit(code)`,
`returned v` models a normal return with Go error `v` (`none` = nil). -/
inductive Outcome (α : Type) where
  | exited (code : Nat)
  | returned (v : α)
  deriving DecidableEq, Repr

/-- Go `strings.ToLower`, restricted to the ASCII lowering Lean's
`Char.toLower` performs (command names in devfiles are ASCII). -/
def stringsToLower (s : String) : String := String.mk (s.data.map Char.toLower)

/-- `warnIfURLSInvalid` from devfile.go: scans the URL list setting the
Docker/Kubernetes existence flags, then emits at most one warning message.
The global `pushtarget.IsPushTargetDocker()` flag is passed explicitly.
Returns the warning message emitted via `log.Warningf`, if any. -/
def warnIfURLSInvalid (isPushTargetDocker : Bool) (url : List LocalURL) : Option String :=
  let flags := url.foldl
    (fun (acc : Bool × Bool) element =>
      if element.kind = URLKind.DOCKER then (true, acc.2) else (acc.1, true))
    (false, false)
  let dockerURLExists := flags.1
  let kubeURLExists := flags.2
  let urlOutput := if url.length > 1 then "URLs" else "a URL"
  if isPushTargetDocker && !dockerURLExists && kubeURLExists then
    some ("Found " ++ urlOutput ++ " defined for Kubernetes, but no valid URLs for Docker.")
  else if !isPushTargetDocker && !kubeURLExists && dockerURLExists then
    some ("Found " ++ urlOutput ++ " defined for Docker, but no valid URLs for Kubernetes.")
  else
    none

/-- A URL belongs to the Docker platform exactly when its kind is `DOCKER`;
all other kinds belong to Kubernetes (the `else` branch of the scan loop). -/
def urlOnPlatform (isDockerPlatform : Bool) (u : LocalURL) : Bool :=
  if isDockerPlatform then u.kind = URLKind.DOCKER else u.kind ≠ URLKind.DOCKER

lemma warn_foldl_flags (url : List LocalURL) (a b : Bool) :
    url.foldl
      (fun (acc : Bool × Bool) element =>
        if element.kind = URLKind.DOCKER then (true, acc.2) else (acc.1, true))
      (a, b)
    = (a || url.any (urlOnPlatform true), b || url.any (urlOnPlatform false)) := by
  induction url generalizing a b with
  | nil => simp
  | cons x xs ih =>
    by_cases hx : x.kind = URLKind.DOCKER <;>
      simp [urlOnPlatform, hx, ih, Bool.or_assoc]

lemma filter_nil_iff_any_false (p : LocalURL → Bool) (l : List LocalURL) :
    l.filter p = [] ↔ l.any p = false := by
  simp [List.filter_eq_nil_iff, List.any_eq_false]

lemma filter_ne_nil_iff_any_true (p : LocalURL → Bool) (l : List LocalURL) :
    l.filter p ≠ [] ↔ l.any p = true := by
  rw [Ne, filter_nil_iff_any_false]
  simp

lemma warn_isSome_iff (b : Bool) (urls : List LocalURL) :
    (warnIfURLSInvalid b urls).isSome = true ↔
      (urls.filter (urlOnPlatform b) = [] ∧ urls.filter (urlOnPlatform (!b)) ≠ []) := by
  have hflags := warn_foldl_flags urls false false
  cases b with
  | false =>
    rw [filter_nil_iff_any_false, filter_ne_nil_iff_any_true]
    simp only [warnIfURLSInvalid, hflags, Bool.false_or, Bool.not_false]
    cases hAD : urls.any (urlOnPlatform true) <;>
      cases hAK : urls.any (urlOnPlatform false) <;>
        simp [hAD, hAK]
  | true =>
    rw [filter_nil_iff_any_false, filter_ne_nil_iff_any_true]
    simp only [warnIfURLSInvalid, hflags, Bool.false_or, Bool.not_true]
    cases hAD : urls.any (urlOnPlatform true) <;>
      cases hAK : urls.any (urlOnPlatform false) <;>
        simp [hAD, hAK]

/-- The fields of `PushOptions` that `DevfilePush`/`devfilePushInner` read.
`kClientNamespace` is `po.KClient.Namespace`; `showLog` is `po.show`
(renamed: `show` is reserved in Lean). -/
structure PushOptions where
  DevfilePath : String
  componentContext : String
  Application : String
  ignores : List String
  forceBuild : Bool
  showLog : Bool
  devfileBuildCommand : String
  devfileRunCommand : String
  devfileDebugCommand : String
  debugRun : Bool
  kClientNamespace : String
  EnvSpecificInfo : EnvInfo

/-- Results the external collaborators of `DevfilePush` return on this
invocation: manifest parsing/validation, path/ignore resolution, the global
push-target and JSON-mode flags, adapter construction, `ListURLs`, the
adapter's `Push`, and the env-info store's `SetRunMode`. -/
structure PushEnv where
  parseResult : Except GoError Devfile
  validateResult : Except GoError Unit
  getAbsPathResult : Except GoError String
  applyIgnoreResult : Except GoError (List String)
  isPushTargetDocker : Bool
  newAdapterResult : Except GoError Unit
  listURLsResult : Except GoError (List LocalURL)
  adapterPushResult : PushParameters → Except GoError Unit
  isJSON : Bool
  setRunModeResult : RunMode → Except GoError Unit

/-- The `common.PushParameters` literal built by `devfilePushInner`:
source path and resolved ignore rules together with the option fields, the
command names lower-cased. -/
def mkPushParameters (po : PushOptions) (sourcePath : String) (ignores : List String) :
    PushParameters :=
  { Path := sourcePath
    IgnoredFiles := ignores
    ForceBuild := po.forceBuild
    Show := po.showLog
    EnvSpecificInfo := po.EnvSpecificInfo
    DevfileBuildCmd := stringsToLower po.devfileBuildCommand
    DevfileRunCmd := stringsToLower po.devfileRunCommand
    DevfileDebugCmd := stringsToLower po.devfileDebugCommand
    Debug := po.debugRun
    DebugPort := po.EnvSpecificInfo.debugPort }

/-- `devfilePushInner` from devfile.go: parse and validate the devfile,
resolve the source path and ignore rules, select the platform context from
the push-target flag, construct the adapter, build `PushParameters` from the
lower-cased caller-supplied command names, list the environment URLs, run the
URL consistency check, and invoke the adapter's Push, wrapping its error with
the component name. Returns the Go error and the event trace. -/
def devfilePushInner (po : PushOptions) (env : PushEnv) :
    Except GoError Unit × List Event :=
  match env.parseResult with
  | Except.error e => (Except.error e, [])
  | Except.ok _ =>
    match env.validateResult with
    | Except.error e => (Except.error e, [])
    | Except.ok _ =>
      let componentName := po.EnvSpecificInfo.name
      match env.getAbsPathResult with
      | Except.error e => (Except.error ("unable to get source path: " ++ e), [])
      | Except.ok sourcePath =>
        match env.applyIgnoreResult with
        | Except.error e => (Except.error ("unable to apply ignore information: " ++ e), [])
        | Except.ok ignores =>
          let platformContext :=
            if env.isPushTargetDocker then PlatformContext.docker
            else PlatformContext.kubernetes po.kClientNamespace
          match env.newAdapterResult with
          | Except.error e => (Except.error e, [Event.adapterConstructed platformContext])
          | Except.ok _ =>
            let pushParams := mkPushParameters po sourcePath ignores
            let trace0 := [Event.adapterConstructed platformContext,
                           Event.paramsBuilt pushParams]
            match env.listURLsResult with
            | Except.error e => (Except.error e, trace0 ++ [Event.urlsListed])
            | Except.ok localURLs =>
              let warnEvents :=
                match warnIfURLSInvalid env.isPushTargetDocker localURLs with
                | some m => [Event.warned m]
                | none => []
              let trace1 := trace0 ++ [Event.urlsListed] ++ warnEvents ++
                            [Event.adapterPush pushParams]
              match env.adapterPushResult pushParams with
              | Except.error e =>
                (Except.error ("Failed to start component with name " ++ componentName ++
                               ". Error: " ++ e), trace1)
              | Except.ok _ => (Except.ok (), trace1)

/-- `DevfilePush` from devfile.go: run the inner push; on failure in JSON
mode report the error once to the machine-output event sink, suppress it and
exit with status 1; otherwise propagate the failure. On success determine the
run mode (Debug iff the debug flag was set) and return `SetRunMode`'s result. -/
def DevfilePush (po : PushOptions) (env : PushEnv) :
    Outcome (Option GoError) × List Event :=
  let inner := devfilePushInner po env
  match inner.1 with
  | Except.error e =>
    if env.isJSON then
      (Outcome.exited 1, inner.2 ++ [Event.reportError e])
    else
      (Outcome.returned (some e), inner.2)
  | Except.ok _ =>
    let runMode := if po.debugRun then RunMode.Debug else RunMode.Run
    match env.setRunModeResult runMode with
    | Except.error e => (Outcome.returned (some e), inner.2 ++ [Event.setRunMode runMode])
    | Except.ok _ => (Outcome.returned none, inner.2 ++ [Event.setRunMode runMode])

/-- Recognizers for the event classes the theorems count. -/
def isReportError : Event → Bool
  | Event.reportError _ => true
  | _ => false

def isSetRunMode : Event → Bool
  | Event.setRunMode _ => true
  | _ => false

def isAdapterPush : Event → Bool
  | Event.adapterPush _ => true
  | _ => false

def isAdapterConstructed : Event → Bool
  | Event.adapterConstructed _ => true
  | _ => false

def isAdapterLog : Event → Bool
  | Event.adapterLog _ _ => true
  | _ => false

def isWarned : Event → Bool
  | Event.warned _ => true
  | _ => false

/-- Key events for the Push ordering claim: parameter construction, URL
listing, the URL consistency-check warning, and the adapter Push call. -/
def isPushKeyEvent : Event → Bool
  | Event.paramsBuilt _ => true
  | Event.urlsListed => true
  | Event.warned _ => true
  | Event.adapterPush _ => true
  | _ => false

lemma inner_filter_reportError (po : PushOptions) (env : PushEnv) :
    (devfilePushInner po env).2.filter isReportError = [] := by
  unfold devfilePushInner
  repeat' split
  all_goals try simp only []
  all_goals repeat' split
  all_goals simp [isReportError]

lemma inner_filter_setRunMode (po : PushOptions) (env : PushEnv) :
    (devfilePushInner po env).2.filter isSetRunMode = [] := by
  unfold devfilePushInner
  repeat' split
  all_goals try simp only []
  all_goals repeat' split
  all_goals simp [isSetRunMode]

lemma DevfilePush_filter_setRunMode (po : PushOptions) (env : PushEnv) :
    (DevfilePush po env).2.filter isSetRunMode =
      (match (devfilePushInner po env).1 with
       | Except.ok _ => [Event.setRunMode (if po.debugRun then RunMode.Debug else RunMode.Run)]
       | Except.error _ => []) := by
  unfold DevfilePush
  cases hi : (devfilePushInner po env).1 with
  | error e =>
    cases hj : env.isJSON <;>
      simp [hi, hj, List.filter_append, inner_filter_setRunMode, isSetRunMode, isReportError]
  | ok u =>
    cases hs : env.setRunModeResult (if po.debugRun then RunMode.Debug else RunMode.Run) <;>
      simp [hi, hs, List.filter_append, inner_filter_setRunMode, isSetRunMode]

/-- Concrete push options used by the witness runs. -/
def poBase : PushOptions :=
  { DevfilePath := "devfile.yaml"
    componentContext := "."
    Application := "app"
    ignores := []
    forceBuild := false
    showLog := false
    devfileBuildCommand := "MyBuild"
    devfileRunCommand := "MyRun"
    devfileDebugCommand := ""
    debugRun := false
    kClientNamespace := "ns"
    EnvSpecificInfo := { name := "comp", debugPort := 5858 } }

/-- An environment in which every external collaborator succeeds. -/
def envAllOk : PushEnv :=
  { parseResult := Except.ok { commands := [] }
    validateResult := Except.ok ()
    getAbsPathResult := Except.ok "/src/app"
    applyIgnoreResult := Except.ok ["node_modules"]
    isPushTargetDocker := false
    newAdapterResult := Except.ok ()
    listURLsResult := Except.ok []
    adapterPushResult := fun _ => Except.ok ()
    isJSON := false
    setRunModeResult := fun _ => Except.ok () }

/-- The C4 scenario manifest: one default Build command named `build`, one
default Run command named `run`, and no Debug command. -/
def manifestBuildRun : Devfile :=
  { commands := [ { name := "build", kind := CommandKind.Build, isDefault := true },
                  { name := "run", kind := CommandKind.Run, isDefault := true } ] }

/-- Push options with debug and force unset and no caller-supplied command
names (the CLI defaults when no command-name flag is given). -/
def poNoNames : PushOptions :=
  { poBase with devfileBuildCommand := "", devfileRunCommand := "", devfileDebugCommand := "" }

/-- Push options with debug and force unset and caller-supplied command
names `build` and `run`. -/
def poNamedCmds : PushOptions :=
  { poBase with devfileBuildCommand := "build", devfileRunCommand := "run",
                devfileDebugCommand := "" }

/-- The all-success environment whose parsed manifest is `manifestBuildRun`. -/
def envManifestBR : PushEnv := { envAllOk with parseResult := Except.ok manifestBuildRun }

/-- The build/run/debug command names an `adapterPush` event carries. -/
def pushedCommandNames : Event → String × String × String
  | Event.adapterPush p => (p.DevfileBuildCmd, p.DevfileRunCmd, p.DevfileDebugCmd)
  | _ => ("", "", "")

/-- A JSON-mode environment whose manifest parse fails. -/
def envJSONFail : PushEnv :=
  { envAllOk with parseResult := Except.error "parse failed", isJSON := true }

/-- A push environment whose `ListURLs` call fails. -/
def envURLFail : PushEnv :=
  { envAllOk with listURLsResult := Except.error "no env info" }

/-- A Docker-kind URL record. -/
def dockerOnlyURL : LocalURL := { name := "u1", kind := URLKind.DOCKER }

/-- A push environment whose env info lists a single Docker URL while the
push target is Kubernetes, so the URL consistency check warns. -/
def envDockerURLOnly : PushEnv :=
  { envAllOk with listURLsResult := Except.ok [dockerOnlyURL] }

/-- The parameters `devfilePushInner poBase envAllOk` hands to the adapter. -/
def paramsBase : PushParameters :=
  { Path := "/src/app"
    IgnoredFiles := ["node_modules"]
    ForceBuild := false
    Show := false
    EnvSpecificInfo := { name := "comp", debugPort := 5858 }
    DevfileBuildCmd := "mybuild"
    DevfileRunCmd := "myrun"
    DevfileDebugCmd := ""
    Debug := false
    DebugPort := 5858 }

/-- The commands of a manifest with the given kind. -/
def commandsOfKind (d : Devfile) (k : CommandKind) : List DevCommand :=
  d.commands.filter (fun c => c.kind = k)

/-- The commands of a manifest with the given kind whose group marks them
as default. -/
def defaultCommandsOfKind (d : Devfile) (k : CommandKind) : List DevCommand :=
  d.commands.filter (fun c => c.kind = k ∧ c.isDefault = true)

/-- Modelled from the spec: `common.GetDebugCommand`
(pkg/devfile/adapters/common, not under src/). Following the spec's Command
Resolver contract for kind Debug: with an empty explicit name it selects the
unique default Debug command and fails when debug commands exist but the
default is absent or ambiguous; with a non-empty name it performs a
case-insensitive lookup among Debug commands. When the manifest has no debug
command at all it returns the zero-value command without error, so that the
caller (`DevfileComponentLog`, in src/) can raise the distinct
NoDebugCommand condition with its user-facing hint. -/
def GetDebugCommand (d : Devfile) (name : String) : Except GoError DevCommand :=
  if name = "" then
    if commandsOfKind d CommandKind.Debug = [] then Except.ok emptyCommand
    else
      match defaultCommandsOfKind d CommandKind.Debug with
      | [c] => Except.ok c
      | _ => Except.error "no default debug command group found"
  else
    match (commandsOfKind d CommandKind.Debug).filter
        (fun c => stringsToLower c.name = stringsToLower name) with
    | [c] => Except.ok c
    | _ => Except.error ("the command \"" ++ name ++ "\" was not found in the devfile")

/-- Modelled from the spec: `common.GetRunCommand`
(pkg/devfile/adapters/common, not under src/). Following the spec's Command
Resolver contract for kind Run: with an empty explicit name it selects the
unique default Run command, failing with the no-default condition otherwise;
with a non-empty name it performs a case-insensitive lookup among Run
commands. -/
def GetRunCommand (d : Devfile) (name : String) : Except GoError DevCommand :=
  if name = "" then
    match defaultCommandsOfKind d CommandKind.Run with
    | [c] => Except.ok c
    | _ => Except.error "no default run command group found"
  else
    match (commandsOfKind d CommandKind.Run).filter
        (fun c => stringsToLower c.name = stringsToLower name) with
    | [c] => Except.ok c
    | _ => Except.error ("the command \"" ++ name ++ "\" was not found in the devfile")

/-- The user-facing message `DevfileComponentLog` produces when the debug
flag is set but the manifest has no debug command. -/
def noDebugMsg : GoError :=
  "no debug command found in devfile, please run \"odo log\" for run command logs"

/-- The command-resolution block of `DevfileComponentLog` (lines 188-203):
kind Debug when the debug flag is set — raising `noDebugMsg` when the
resolver hands back the zero-value command — and kind Run otherwise, with no
explicit name override in either case. -/
def resolveLogCommand (debug : Bool) (d : Devfile) : Except GoError DevCommand :=
  if debug then
    match GetDebugCommand d "" with
    | Except.error e => Except.error e
    | Except.ok c => if c = emptyCommand then Except.error noDebugMsg else Except.ok c
  else GetRunCommand d ""

/-- The fields of `LogOptions` that `DevfileComponentLog` reads; `envName`
is `lo.Context.EnvSpecificInfo.GetName()`. -/
structure LogOptions where
  devfilePath : String
  componentContext : String
  Application : String
  debug : Bool
  logFollow : Bool
  kClientNamespace : String
  envName : String

/-- Results the external collaborators of `DevfileComponentLog` return.
`isJSON` is carried to state that Log has no structured-output divergence:
the definition never reads it. -/
structure LogEnv where
  parseResult : Except GoError Devfile
  validateResult : Except GoError Unit
  isPushTargetDocker : Bool
  isJSON : Bool
  newAdapterResult : Except GoError Unit
  adapterLogResult : Bool → DevCommand → Except GoError Unit
  displayLogResult : Except GoError Unit

/-- `DevfileComponentLog` from devfile.go: parse and validate the devfile,
select the platform context, construct the adapter, resolve the run or debug
command, invoke the adapter's Log; on adapter error report and `os.Exit(1)`,
on success stream the log via `util.DisplayLog` and return its result. -/
def DevfileComponentLog (lo : LogOptions) (env : LogEnv) :
    Outcome (Option GoError) × List Event :=
  match env.parseResult with
  | Except.error e => (Outcome.returned (some e), [])
  | Except.ok devObj =>
    match env.validateResult with
    | Except.error e => (Outcome.returned (some e), [])
    | Except.ok _ =>
      let platformContext :=
        if env.isPushTargetDocker then PlatformContext.docker
        else PlatformContext.kubernetes lo.kClientNamespace
      match env.newAdapterResult with
      | Except.error e =>
        (Outcome.returned (some e), [Event.adapterConstructed platformContext])
      | Except.ok _ =>
        let trace0 := [Event.adapterConstructed platformContext]
        match resolveLogCommand lo.debug devObj with
        | Except.error e => (Outcome.returned (some e), trace0)
        | Except.ok command =>
          match env.adapterLogResult lo.logFollow command with
          | Except.error _ =>
            (Outcome.exited 1, trace0 ++ [Event.adapterLog lo.logFollow command])
          | Except.ok _ =>
            match env.displayLogResult with
            | Except.error e =>
              (Outcome.returned (some e), trace0 ++ [Event.adapterLog lo.logFollow command])
            | Except.ok _ =>
              (Outcome.returned none, trace0 ++ [Event.adapterLog lo.logFollow command])

lemma DevfileComponentLog_isJSON_irrelevant (lo : LogOptions) (env : LogEnv) (b : Bool) :
    DevfileComponentLog lo { env with isJSON := b } = DevfileComponentLog lo env := by
  rcases env with ⟨pr, vr, ipd, ij, na, al, dl⟩
  rfl

/-- Concrete log options for the witness runs. -/
def loBase : LogOptions :=
  { devfilePath := "devfile.yaml"
    componentContext := "."
    Application := "app"
    debug := false
    logFollow := false
    kClientNamespace := "ns"
    envName := "comp" }

/-- Log options with the debug flag set. -/
def loDebug : LogOptions := { loBase with debug := true }

/-- A log environment in which every external collaborator succeeds, over
the build/run manifest (which has no debug command). -/
def logEnvOk : LogEnv :=
  { parseResult := Except.ok manifestBuildRun
    validateResult := Except.ok ()
    isPushTargetDocker := false
    isJSON := false
    newAdapterResult := Except.ok ()
    adapterLogResult := fun _ _ => Except.ok ()
    displayLogResult := Except.ok () }

/-- `logEnvOk` with a failing adapter Log stream. -/
def logEnvErr : LogEnv :=
  { logEnvOk with adapterLogResult := fun _ _ => Except.error "stream broken" }

/-- The default run command of `manifestBuildRun`. -/
def runCmdBR : DevCommand := { name := "run", kind := CommandKind.Run, isDefault := true }

/-- The fields of `DeleteOptions` that `DevfileComponentDelete` reads;
`namespace_` is `do.namespace` and `showProgress` is `do.show` (both renamed:
reserved words in Lean), `envName` is `do.EnvSpecificInfo.GetName()`. -/
structure DeleteOptions where
  devfilePath : String
  componentContext : String
  Application : String
  namespace_ : String
  envName : String
  showProgress : Bool

/-- Results the external collaborators of `DevfileComponentDelete` return.
`isPushTargetDocker` is carried to state that Delete never consults the
push-target flag: the definition never reads it. -/
structure DeleteEnv where
  parseResult : Except GoError Devfile
  validateResult : Except GoError Unit
  isPushTargetDocker : Bool
  newAdapterResult : Except GoError Unit
  adapterDeleteResult : List (String × String) → Bool → Except GoError Unit

/-- `DevfileComponentDelete` from devfile.go: parse and validate the
devfile, construct the adapter with a Kubernetes context carrying the
caller-supplied namespace (unconditionally — no push-target branch), and
invoke the adapter's Delete with the `component → name` label selector and
the show-progress flag, propagating its result. -/
def DevfileComponentDelete (dopt : DeleteOptions) (env : DeleteEnv) :
    Except GoError Unit × List Event :=
  match env.parseResult with
  | Except.error e => (Except.error e, [])
  | Except.ok _ =>
    match env.validateResult with
    | Except.error e => (Except.error e, [])
    | Except.ok _ =>
      let componentName := dopt.envName
      let kc := PlatformContext.kubernetes dopt.namespace_
      let labels := [("component", componentName)]
      match env.newAdapterResult with
      | Except.error e => (Except.error e, [Event.adapterConstructed kc])
      | Except.ok _ =>
        (env.adapterDeleteResult labels dopt.showProgress,
         [Event.adapterConstructed kc, Event.adapterDelete labels dopt.showProgress])

/-- The fields of `ExecOptions` that `DevfileComponentExec` reads;
`namespace_` is `eo.namespace`, `envName` is
`eo.componentOptions.EnvSpecificInfo.GetName()`. -/
structure ExecOptions where
  devfilePath : String
  componentContext : String
  Application : String
  namespace_ : String
  envName : String

/-- Results the external collaborators of `DevfileComponentExec` return. -/
structure ExecEnv where
  parseResult : Except GoError Devfile
  validateResult : Except GoError Unit
  isPushTargetDocker : Bool
  newAdapterResult : Except GoError Unit
  adapterExecResult : List String → Except GoError Unit

/-- `DevfileComponentExec` from devfile.go: parse and validate the devfile,
construct the adapter with a Kubernetes context carrying the caller-supplied
namespace, and invoke the adapter's Exec with the caller's command argument
vector unmodified, propagating its result. -/
def DevfileComponentExec (eo : ExecOptions) (env : ExecEnv) (command : List String) :
    Except GoError Unit × List Event :=
  match env.parseResult with
  | Except.error e => (Except.error e, [])
  | Except.ok _ =>
    match env.validateResult with
    | Except.error e => (Except.error e, [])
    | Except.ok _ =>
      let kc := PlatformContext.kubernetes eo.namespace_
      match env.newAdapterResult with
      | Except.error e => (Except.error e, [Event.adapterConstructed kc])
      | Except.ok _ =>
        (env.adapterExecResult command,
         [Event.adapterConstructed kc, Event.adapterExec command])

def isAdapterDelete : Event → Bool
  | Event.adapterDelete _ _ => true
  | _ => false

def isAdapterExec : Event → Bool
  | Event.adapterExec _ => true
  | _ => false

/-- Concrete delete options for the witness run. -/
def doptBase : DeleteOptions :=
  { devfilePath := "devfile.yaml"
    componentContext := "."
    Application := "app"
    namespace_ := "proj"
    envName := "comp"
    showProgress := true }

/-- A delete environment in which every external collaborator succeeds, with
the push target set to Docker to exercise that Delete ignores it. -/
def deleteEnvOk : DeleteEnv :=
  { parseResult := Except.ok manifestBuildRun
    validateResult := Except.ok ()
    isPushTargetDocker := true
    newAdapterResult := Except.ok ()
    adapterDeleteResult := fun _ _ => Except.ok () }

/-- Concrete exec options for the witness run. -/
def eoBase : ExecOptions :=
  { devfilePath := "devfile.yaml"
    componentContext := "."
    Application := "app"
    namespace_ := "proj"
    envName := "comp" }

/-- An exec environment in which every external collaborator succeeds. -/
def execEnvOk : ExecEnv :=
  { parseResult := Except.ok manifestBuildRun
    validateResult := Except.ok ()
    isPushTargetDocker := false
    newAdapterResult := Except.ok ()
    adapterExecResult := fun _ => Except.ok () }

end Odo

/-- C7: `warnIfURLSInvalid` emits a warning if and only if the active
platform's URL set (Docker URLs when the push target is Docker, all other
URLs otherwise) is empty while the other platform's URL set is non-empty,
symmetrically for both platforms; it is a pure function of the flag and the
list (it returns no error and leaves the input list untouched). -/
theorem warnIfURLSInvalid_warns_iff (b : Bool) (urls : List Odo.LocalURL) :
    ((Odo.warnIfURLSInvalid b urls).isSome = true ↔
      (urls.filter (Odo.urlOnPlatform b) = [] ∧
       urls.filter (Odo.urlOnPlatform (!b)) ≠ [])) :=
  Odo.warn_isSome_iff b urls

open Odo

/-- C1: when the inner push fails and structured (JSON) output mode is
active, `DevfilePush` reports the error exactly once to the event sink and
terminates the process with exit code 1 instead of returning the error; with
structured mode inactive the same failure is propagated to the caller and
the event sink is never called. -/
theorem DevfilePush_structured_failure (po : PushOptions) (env : PushEnv) (e : GoError)
    (h : (devfilePushInner po env).1 = Except.error e) :
    ((DevfilePush po env).1 =
       if env.isJSON then Outcome.exited 1 else Outcome.returned (some e)) ∧
    ((DevfilePush po env).2.filter isReportError =
       if env.isJSON then [Event.reportError e] else []) := by
  unfold DevfilePush
  cases hj : env.isJSON <;>
    simp [h, hj, List.filter_append, inner_filter_reportError, isReportError]

/-- Witness for C1: a concrete JSON-mode run whose manifest parse fails. -/
theorem DevfilePush_structured_failure_witness :
    (devfilePushInner poBase envJSONFail).1 = Except.error "parse failed" ∧
    (((DevfilePush poBase envJSONFail).1 =
       if envJSONFail.isJSON then Outcome.exited 1
       else Outcome.returned (some "parse failed")) ∧
     ((DevfilePush poBase envJSONFail).2.filter isReportError =
       if envJSONFail.isJSON then [Event.reportError "parse failed"] else [])) :=
  ⟨rfl, DevfilePush_structured_failure poBase envJSONFail "parse failed" rfl⟩

/-- C2: `SetRunMode` is called exactly once iff the inner push succeeds,
with mode Debug when the debug flag is set and Run otherwise; a failed inner
push produces zero `SetRunMode` calls; and when `SetRunMode` itself fails
after a successful push, its error is returned to the caller. -/
theorem DevfilePush_setRunMode_once (po : PushOptions) (env : PushEnv) :
    ((DevfilePush po env).2.filter isSetRunMode =
      (match (devfilePushInner po env).1 with
       | Except.ok _ =>
         [Event.setRunMode (if po.debugRun then RunMode.Debug else RunMode.Run)]
       | Except.error _ => [])) ∧
    ((DevfilePush po env).1 =
      (match (devfilePushInner po env).1 with
       | Except.ok _ =>
         Outcome.returned
           (match env.setRunModeResult (if po.debugRun then RunMode.Debug else RunMode.Run) with
            | Except.error e => some e
            | Except.ok _ => none)
       | Except.error e =>
         if env.isJSON then Outcome.exited 1 else Outcome.returned (some e))) := by
  refine ⟨DevfilePush_filter_setRunMode po env, ?_⟩
  unfold DevfilePush
  cases hi : (devfilePushInner po env).1 with
  | error e => cases hj : env.isJSON <;> simp [hi, hj]
  | ok u =>
    cases hs : env.setRunModeResult (if po.debugRun then RunMode.Debug else RunMode.Run) <;>
      simp [hi, hs]

/-- C3: every `adapter.Push` invocation recorded by `devfilePushInner`
carries build/run/debug command names that are exactly the lower-cased
caller-supplied names, independent of the manifest. -/
theorem devfilePushInner_commandNames (po : PushOptions) (env : PushEnv) :
    ∀ p : PushParameters, Event.adapterPush p ∈ (devfilePushInner po env).2 →
      p.DevfileBuildCmd = stringsToLower po.devfileBuildCommand ∧
      p.DevfileRunCmd = stringsToLower po.devfileRunCommand ∧
      p.DevfileDebugCmd = stringsToLower po.devfileDebugCommand := by
  intro p hp
  unfold devfilePushInner at hp
  repeat' split at hp
  all_goals try simp only [] at hp
  all_goals repeat' split at hp
  all_goals simp_all [mkPushParameters]

/-- Witness for C3: the concrete all-success run pushes `paramsBase`, whose
command names are the lower-cased caller-supplied names of `poBase`. -/
theorem devfilePushInner_commandNames_witness :
    Event.adapterPush paramsBase ∈ (devfilePushInner poBase envAllOk).2 ∧
    (paramsBase.DevfileBuildCmd = stringsToLower poBase.devfileBuildCommand ∧
     paramsBase.DevfileRunCmd = stringsToLower poBase.devfileRunCommand ∧
     paramsBase.DevfileDebugCmd = stringsToLower poBase.devfileDebugCommand) :=
  ⟨by decide, devfilePushInner_commandNames poBase envAllOk paramsBase (by decide)⟩

/-- C4 counterexample: on the scenario manifest (default Build `build`,
default Run `run`, no Debug command), a Push with debug and force unset and
no caller-supplied command names invokes `adapter.Push` with empty build and
run command names — not the manifest's `build` and `run` — because
`devfilePushInner` never consults the manifest for the names. -/
theorem push_manifest_scenario_counterexample :
    envManifestBR.parseResult = Except.ok manifestBuildRun ∧
    poNoNames.debugRun = false ∧
    poNoNames.forceBuild = false ∧
    ((devfilePushInner poNoNames envManifestBR).2.filter isAdapterPush).map pushedCommandNames =
      [("", "", "")] ∧
    ("" : String) ≠ "build" := by
  refine ⟨rfl, rfl, rfl, by decide, by decide⟩

/-- C4 amended: with the same manifest, a Push with debug and force unset
whose caller supplies build command name `build`, run command name `run` and
no debug command name invokes `adapter.Push` with
`DevfileBuildCmd="build"`, `DevfileRunCmd="run"`, `DevfileDebugCmd=""`
(the names come from the caller-supplied flags, not the manifest), and on
adapter success persists `RunMode.Run` and returns no error. -/
theorem push_named_scenario_amended :
    ((devfilePushInner poNamedCmds envManifestBR).2.filter isAdapterPush).map pushedCommandNames =
      [("build", "run", "")] ∧
    (DevfilePush poNamedCmds envManifestBR).1 = Outcome.returned none ∧
    (DevfilePush poNamedCmds envManifestBR).2.filter isSetRunMode =
      [Event.setRunMode RunMode.Run] := by
  refine ⟨by decide, rfl, by decide⟩

/-- C10: in `devfilePushInner` the URL listing and the URL consistency
check run after `PushParameters` are built and before `adapter.Push` is
invoked: the key-event trace (parameter construction, URL listing,
consistency-check warning, adapter Push) is always one of the shapes
`[]`, `paramsBuilt p, urlsListed`, `paramsBuilt p, urlsListed, adapterPush p`
or `paramsBuilt p, urlsListed, warned m, adapterPush p`, placing the check's
warning strictly between the listing and the adapter Push; in every run that
reaches the listing, the recorded warnings are exactly
`warnIfURLSInvalid`'s output on the listed URLs; and when `ListURLs` fails
in a run that reached it, the push aborts with that error, `adapter.Push` is
never invoked, and `DevfilePush` performs no `SetRunMode` call. -/
theorem devfilePushInner_urlListing (po : PushOptions) (env : PushEnv) :
    (∃ p : PushParameters,
       (devfilePushInner po env).2.filter isPushKeyEvent = [] ∨
       (devfilePushInner po env).2.filter isPushKeyEvent =
         [Event.paramsBuilt p, Event.urlsListed] ∨
       (devfilePushInner po env).2.filter isPushKeyEvent =
         [Event.paramsBuilt p, Event.urlsListed, Event.adapterPush p] ∨
       (∃ m : String,
          (devfilePushInner po env).2.filter isPushKeyEvent =
            [Event.paramsBuilt p, Event.urlsListed, Event.warned m,
             Event.adapterPush p])) ∧
    (∀ ls : List LocalURL, env.listURLsResult = Except.ok ls →
       Event.urlsListed ∈ (devfilePushInner po env).2 →
       (devfilePushInner po env).2.filter isWarned =
         (match warnIfURLSInvalid env.isPushTargetDocker ls with
          | some m => [Event.warned m]
          | none => [])) ∧
    (∀ e : GoError, env.listURLsResult = Except.error e →
       Event.urlsListed ∈ (devfilePushInner po env).2 →
       (devfilePushInner po env).1 = Except.error e ∧
       (devfilePushInner po env).2.filter isAdapterPush = [] ∧
       (DevfilePush po env).2.filter isSetRunMode = []) := by
  refine ⟨?_, ?_, ?_⟩
  · cases hpr : env.parseResult with
    | error e0 => exact ⟨mkPushParameters po "" [], Or.inl (by simp [devfilePushInner, hpr])⟩
    | ok d =>
    cases hv : env.validateResult with
    | error e0 =>
      exact ⟨mkPushParameters po "" [], Or.inl (by simp [devfilePushInner, hpr, hv])⟩
    | ok u =>
    cases hap : env.getAbsPathResult with
    | error e0 =>
      exact ⟨mkPushParameters po "" [], Or.inl (by simp [devfilePushInner, hpr, hv, hap])⟩
    | ok sp =>
    cases hig : env.applyIgnoreResult with
    | error e0 =>
      exact ⟨mkPushParameters po "" [],
        Or.inl (by simp [devfilePushInner, hpr, hv, hap, hig])⟩
    | ok ig =>
    cases hna : env.newAdapterResult with
    | error e0 =>
      exact ⟨mkPushParameters po "" [],
        Or.inl (by simp [devfilePushInner, hpr, hv, hap, hig, hna, isPushKeyEvent])⟩
    | ok u2 =>
    cases hlu : env.listURLsResult with
    | error e0 =>
      exact ⟨mkPushParameters po sp ig,
        Or.inr (Or.inl (by
          simp [devfilePushInner, hpr, hv, hap, hig, hna, hlu, isPushKeyEvent]))⟩
    | ok ls =>
      cases hw : warnIfURLSInvalid env.isPushTargetDocker ls with
      | none =>
        refine ⟨mkPushParameters po sp ig, Or.inr (Or.inr (Or.inl ?_))⟩
        cases hpush : env.adapterPushResult (mkPushParameters po sp ig) with
        | error e0 =>
          simp [devfilePushInner, hpr, hv, hap, hig, hna, hlu, hw, hpush, isPushKeyEvent]
        | ok u3 =>
          simp [devfilePushInner, hpr, hv, hap, hig, hna, hlu, hw, hpush, isPushKeyEvent]
      | some m =>
        refine ⟨mkPushParameters po sp ig, Or.inr (Or.inr (Or.inr ⟨m, ?_⟩))⟩
        cases hpush : env.adapterPushResult (mkPushParameters po sp ig) with
        | error e0 =>
          simp [devfilePushInner, hpr, hv, hap, hig, hna, hlu, hw, hpush, isPushKeyEvent]
        | ok u3 =>
          simp [devfilePushInner, hpr, hv, hap, hig, hna, hlu, hw, hpush, isPushKeyEvent]
  · intro ls hls hm
    cases hpr : env.parseResult with
    | error e0 => simp [devfilePushInner, hpr] at hm
    | ok d =>
    cases hv : env.validateResult with
    | error e0 => simp [devfilePushInner, hpr, hv] at hm
    | ok u =>
    cases hap : env.getAbsPathResult with
    | error e0 => simp [devfilePushInner, hpr, hv, hap] at hm
    | ok sp =>
    cases hig : env.applyIgnoreResult with
    | error e0 => simp [devfilePushInner, hpr, hv, hap, hig] at hm
    | ok ig =>
    cases hna : env.newAdapterResult with
    | error e0 => simp [devfilePushInner, hpr, hv, hap, hig, hna] at hm
    | ok u2 =>
      cases hw : warnIfURLSInvalid env.isPushTargetDocker ls with
      | none =>
        cases hpush : env.adapterPushResult (mkPushParameters po sp ig) with
        | error e0 =>
          simp [devfilePushInner, hpr, hv, hap, hig, hna, hls, hw, hpush, isWarned]
        | ok u3 =>
          simp [devfilePushInner, hpr, hv, hap, hig, hna, hls, hw, hpush, isWarned]
      | some m =>
        cases hpush : env.adapterPushResult (mkPushParameters po sp ig) with
        | error e0 =>
          simp [devfilePushInner, hpr, hv, hap, hig, hna, hls, hw, hpush, isWarned]
        | ok u3 =>
          simp [devfilePushInner, hpr, hv, hap, hig, hna, hls, hw, hpush, isWarned]
  · intro e he hm
    have hsrm := DevfilePush_filter_setRunMode po env
    cases hpr : env.parseResult with
    | error e0 => simp [devfilePushInner, hpr] at hm
    | ok d =>
    cases hv : env.validateResult with
    | error e0 => simp [devfilePushInner, hpr, hv] at hm
    | ok u =>
    cases hap : env.getAbsPathResult with
    | error e0 => simp [devfilePushInner, hpr, hv, hap] at hm
    | ok sp =>
    cases hig : env.applyIgnoreResult with
    | error e0 => simp [devfilePushInner, hpr, hv, hap, hig] at hm
    | ok ig =>
    cases hna : env.newAdapterResult with
    | error e0 => simp [devfilePushInner, hpr, hv, hap, hig, hna] at hm
    | ok u2 =>
      refine ⟨?_, ?_, ?_⟩
      · simp [devfilePushInner, hpr, hv, hap, hig, hna, he]
      · simp [devfilePushInner, hpr, hv, hap, hig, hna, he, isAdapterPush]
      · rw [hsrm]
        simp [devfilePushInner, hpr, hv, hap, hig, hna, he]

/-- Witness for C10: one concrete run lists a Docker-only URL set on a
Kubernetes push target, so the consistency check's warning is recorded
(between the listing and the adapter Push); a second concrete run whose
`ListURLs` call fails aborts with that error, with neither `adapter.Push`
nor `SetRunMode` called. -/
theorem devfilePushInner_urlListing_witness :
    envDockerURLOnly.listURLsResult = Except.ok [dockerOnlyURL] ∧
    Event.urlsListed ∈ (devfilePushInner poBase envDockerURLOnly).2 ∧
    (devfilePushInner poBase envDockerURLOnly).2.filter isWarned =
      (match warnIfURLSInvalid envDockerURLOnly.isPushTargetDocker [dockerOnlyURL] with
       | some m => [Event.warned m]
       | none => []) ∧
    envURLFail.listURLsResult = Except.error "no env info" ∧
    Event.urlsListed ∈ (devfilePushInner poBase envURLFail).2 ∧
    ((devfilePushInner poBase envURLFail).1 = Except.error "no env info" ∧
     (devfilePushInner poBase envURLFail).2.filter isAdapterPush = [] ∧
     (DevfilePush poBase envURLFail).2.filter isSetRunMode = []) :=
  ⟨rfl, by decide,
   (devfilePushInner_urlListing poBase envDockerURLOnly).2.1 [dockerOnlyURL] rfl (by decide),
   rfl, by decide,
   (devfilePushInner_urlListing poBase envURLFail).2.2 "no env info" rfl (by decide)⟩

/-- C5 counterexample: with the debug flag set on a manifest containing zero
debug commands, the Log operation does fail with the NoDebugCommand message,
but only after the adapter has been constructed — the trace of the concrete
failing run already contains the adapter-construction event, contradicting
"before any adapter is constructed". -/
theorem log_noDebug_after_adapter_counterexample :
    (DevfileComponentLog loDebug logEnvOk).1 = Outcome.returned (some noDebugMsg) ∧
    (DevfileComponentLog loDebug logEnvOk).2 =
      [Event.adapterConstructed (PlatformContext.kubernetes "ns")] := by
  refine ⟨by decide, by decide⟩

/-- C5 amended: for every Log invocation with the debug flag set on a
manifest containing zero debug commands (parse, validation and adapter
construction succeeding), the operation fails with the distinct
NoDebugCommand message suggesting the non-debug log verb; the failure occurs
after the adapter is constructed but before the adapter's Log is ever
invoked. -/
theorem DevfileComponentLog_noDebugCommand (lo : LogOptions) (env : LogEnv) (d : Devfile)
    (hpr : env.parseResult = Except.ok d)
    (hv : env.validateResult = Except.ok ())
    (hna : env.newAdapterResult = Except.ok ())
    (hdbg : lo.debug = true)
    (hnone : commandsOfKind d CommandKind.Debug = []) :
    (DevfileComponentLog lo env).1 = Outcome.returned (some noDebugMsg) ∧
    (DevfileComponentLog lo env).2.filter isAdapterLog = [] ∧
    (DevfileComponentLog lo env).2.filter isAdapterConstructed ≠ [] := by
  have hres : resolveLogCommand lo.debug d = Except.error noDebugMsg := by
    simp [resolveLogCommand, hdbg, GetDebugCommand, hnone]
  cases hd : env.isPushTargetDocker <;>
    simp [DevfileComponentLog, hpr, hv, hna, hd, hres, isAdapterLog, isAdapterConstructed]

/-- Witness for C5: the concrete debug-flagged run over the build/run
manifest. -/
theorem DevfileComponentLog_noDebugCommand_witness :
    logEnvOk.parseResult = Except.ok manifestBuildRun ∧
    logEnvOk.validateResult = Except.ok () ∧
    logEnvOk.newAdapterResult = Except.ok () ∧
    loDebug.debug = true ∧
    commandsOfKind manifestBuildRun CommandKind.Debug = [] ∧
    ((DevfileComponentLog loDebug logEnvOk).1 = Outcome.returned (some noDebugMsg) ∧
     (DevfileComponentLog loDebug logEnvOk).2.filter isAdapterLog = [] ∧
     (DevfileComponentLog loDebug logEnvOk).2.filter isAdapterConstructed ≠ []) :=
  ⟨rfl, rfl, rfl, rfl, by decide,
   DevfileComponentLog_noDebugCommand loDebug logEnvOk manifestBuildRun rfl rfl rfl rfl
     (by decide)⟩

/-- C6: whenever the adapter's Log call fails, `DevfileComponentLog`
terminates the process with exit status 1 (an `exited` outcome, hence the
adapter error is never returned to the caller), and the JSON-mode flag makes
no difference — no structured-output divergence applies to Log. -/
theorem DevfileComponentLog_adapterError (lo : LogOptions) (env : LogEnv)
    (c : DevCommand) (e : GoError)
    (hc : Event.adapterLog lo.logFollow c ∈ (DevfileComponentLog lo env).2)
    (he : env.adapterLogResult lo.logFollow c = Except.error e) :
    (DevfileComponentLog lo env).1 = Outcome.exited 1 ∧
    (∀ b : Bool, (DevfileComponentLog lo { env with isJSON := b }).1 = Outcome.exited 1) := by
  cases hpr : env.parseResult with
  | error e0 => simp [DevfileComponentLog, hpr] at hc
  | ok d =>
  cases hv : env.validateResult with
  | error e0 => simp [DevfileComponentLog, hpr, hv] at hc
  | ok u =>
  cases hna : env.newAdapterResult with
  | error e0 => simp [DevfileComponentLog, hpr, hv, hna] at hc
  | ok u2 =>
  cases hcr : resolveLogCommand lo.debug d with
  | error e0 => simp [DevfileComponentLog, hpr, hv, hna, hcr] at hc
  | ok cmd =>
    cases hal : env.adapterLogResult lo.logFollow cmd with
    | error e1 =>
      have hmain : (DevfileComponentLog lo env).1 = Outcome.exited 1 := by
        simp [DevfileComponentLog, hpr, hv, hna, hcr, hal]
      refine ⟨hmain, fun b => ?_⟩
      simp [DevfileComponentLog, hcr, hal]
    | ok u3 =>
      have hceq : c = cmd := by
        cases hdl : env.displayLogResult <;>
          simp [DevfileComponentLog, hpr, hv, hna, hcr, hal, hdl] at hc <;>
            exact hc
      rw [hceq] at he
      rw [he] at hal
      cases hal

/-- Witness for C6: a concrete run whose adapter Log stream fails; the
operation exits with status 1, with the JSON flag set or not. -/
theorem DevfileComponentLog_adapterError_witness :
    Event.adapterLog loBase.logFollow runCmdBR ∈ (DevfileComponentLog loBase logEnvErr).2 ∧
    logEnvErr.adapterLogResult loBase.logFollow runCmdBR = Except.error "stream broken" ∧
    (DevfileComponentLog loBase logEnvErr).1 = Outcome.exited 1 ∧
    (DevfileComponentLog loBase { logEnvErr with isJSON := true }).1 = Outcome.exited 1 :=
  ⟨by decide, rfl,
   (DevfileComponentLog_adapterError loBase logEnvErr runCmdBR "stream broken"
      (by decide) rfl).1,
   (DevfileComponentLog_adapterError loBase logEnvErr runCmdBR "stream broken"
      (by decide) rfl).2 true⟩

/-- C8: every adapter `DevfileComponentDelete` constructs uses the Cluster
(Kubernetes) platform context carrying the caller-supplied namespace — never
the local-engine context, and independently of the global push-target flag —
and every `adapter.Delete` invocation carries the label selector mapping
`component` to the component name together with the show-progress flag. -/
theorem DevfileComponentDelete_clusterContext (dopt : DeleteOptions) (env : DeleteEnv) :
    (∀ ctx : PlatformContext,
       Event.adapterConstructed ctx ∈ (DevfileComponentDelete dopt env).2 →
       ctx = PlatformContext.kubernetes dopt.namespace_) ∧
    (∀ (ls : List (String × String)) (b : Bool),
       Event.adapterDelete ls b ∈ (DevfileComponentDelete dopt env).2 →
       ls = [("component", dopt.envName)] ∧ b = dopt.showProgress) ∧
    (∀ b : Bool,
       DevfileComponentDelete dopt { env with isPushTargetDocker := b } =
       DevfileComponentDelete dopt env) := by
  refine ⟨?_, ?_, ?_⟩
  · intro ctx hctx
    cases hpr : env.parseResult with
    | error e0 => simp [DevfileComponentDelete, hpr] at hctx
    | ok d =>
    cases hv : env.validateResult with
    | error e0 => simp [DevfileComponentDelete, hpr, hv] at hctx
    | ok u =>
    cases hna : env.newAdapterResult with
    | error e0 =>
      simp [DevfileComponentDelete, hpr, hv, hna] at hctx
      exact hctx
    | ok u2 =>
      simp [DevfileComponentDelete, hpr, hv, hna] at hctx
      exact hctx
  · intro ls b hdel
    cases hpr : env.parseResult with
    | error e0 => simp [DevfileComponentDelete, hpr] at hdel
    | ok d =>
    cases hv : env.validateResult with
    | error e0 => simp [DevfileComponentDelete, hpr, hv] at hdel
    | ok u =>
    cases hna : env.newAdapterResult with
    | error e0 => simp [DevfileComponentDelete, hpr, hv, hna] at hdel
    | ok u2 =>
      simp [DevfileComponentDelete, hpr, hv, hna] at hdel
      exact hdel
  · intro b
    rcases env with ⟨pr, vr, ipd, na, ad⟩
    rfl

/-- Witness for C8: a concrete successful delete run (with the push target
globally set to Docker) constructs the Kubernetes adapter for namespace
`proj` and deletes by the `component=comp` selector with progress shown. -/
theorem DevfileComponentDelete_clusterContext_witness :
    Event.adapterConstructed (PlatformContext.kubernetes "proj") ∈
      (DevfileComponentDelete doptBase deleteEnvOk).2 ∧
    Event.adapterDelete [("component", "comp")] true ∈
      (DevfileComponentDelete doptBase deleteEnvOk).2 ∧
    (PlatformContext.kubernetes "proj" = PlatformContext.kubernetes doptBase.namespace_) ∧
    ([(("component" : String), ("comp" : String))] = [(("component" : String), doptBase.envName)] ∧
     true = doptBase.showProgress) :=
  ⟨by decide, by decide,
   (DevfileComponentDelete_clusterContext doptBase deleteEnvOk).1
     (PlatformContext.kubernetes "proj") (by decide),
   (DevfileComponentDelete_clusterContext doptBase deleteEnvOk).2.1
     [("component", "comp")] true (by decide)⟩

/-- C9: every `adapter.Exec` invocation `DevfileComponentExec` records
carries exactly the caller-supplied command argument vector, unmodified and
with no resolution against the manifest; the adapter is constructed with the
Cluster (Kubernetes) context carrying the caller's namespace; and
`adapter.Delete` is never involved. -/
theorem DevfileComponentExec_passthrough (eo : ExecOptions) (env : ExecEnv)
    (command : List String) :
    (∀ cmd : List String,
       Event.adapterExec cmd ∈ (DevfileComponentExec eo env command).2 →
       cmd = command) ∧
    (∀ ctx : PlatformContext,
       Event.adapterConstructed ctx ∈ (DevfileComponentExec eo env command).2 →
       ctx = PlatformContext.kubernetes eo.namespace_) ∧
    (DevfileComponentExec eo env command).2.filter isAdapterDelete = [] := by
  refine ⟨?_, ?_, ?_⟩
  · intro cmd hcmd
    cases hpr : env.parseResult with
    | error e0 => simp [DevfileComponentExec, hpr] at hcmd
    | ok d =>
    cases hv : env.validateResult with
    | error e0 => simp [DevfileComponentExec, hpr, hv] at hcmd
    | ok u =>
    cases hna : env.newAdapterResult with
    | error e0 => simp [DevfileComponentExec, hpr, hv, hna] at hcmd
    | ok u2 =>
      simp [DevfileComponentExec, hpr, hv, hna] at hcmd
      exact hcmd
  · intro ctx hctx
    cases hpr : env.parseResult with
    | error e0 => simp [DevfileComponentExec, hpr] at hctx
    | ok d =>
    cases hv : env.validateResult with
    | error e0 => simp [DevfileComponentExec, hpr, hv] at hctx
    | ok u =>
    cases hna : env.newAdapterResult with
    | error e0 =>
      simp [DevfileComponentExec, hpr, hv, hna] at hctx
      exact hctx
    | ok u2 =>
      simp [DevfileComponentExec, hpr, hv, hna] at hctx
      exact hctx
  · cases hpr : env.parseResult with
    | error e0 => simp [DevfileComponentExec, hpr]
    | ok d =>
    cases hv : env.validateResult with
    | error e0 => simp [DevfileComponentExec, hpr, hv]
    | ok u =>
    cases hna : env.newAdapterResult with
    | error e0 => simp [DevfileComponentExec, hpr, hv, hna, isAdapterDelete]
    | ok u2 => simp [DevfileComponentExec, hpr, hv, hna, isAdapterDelete, isAdapterExec]

/-- Witness for C9: the scenario run `exec -- npm test`; the adapter
receives exactly `["npm", "test"]` on the Kubernetes context for namespace
`proj`, and no Delete occurs. -/
theorem DevfileComponentExec_passthrough_witness :
    Event.adapterExec ["npm", "test"] ∈
      (DevfileComponentExec eoBase execEnvOk ["npm", "test"]).2 ∧
    Event.adapterConstructed (PlatformContext.kubernetes "proj") ∈
      (DevfileComponentExec eoBase execEnvOk ["npm", "test"]).2 ∧
    (["npm", "test"] = ["npm", "test"] ∧
     PlatformContext.kubernetes "proj" = PlatformContext.kubernetes eoBase.namespace_ ∧
     (DevfileComponentExec eoBase execEnvOk ["npm", "test"]).2.filter isAdapterDelete = []) :=
  ⟨by decide, by decide,
   (DevfileComponentExec_passthrough eoBase execEnvOk ["npm", "test"]).1
     ["npm", "test"] (by decide),
   (DevfileComponentExec_passthrough eoBase execEnvOk ["npm", "test"]).2.1
     (PlatformContext.kubernetes "proj") (by decide),
   (DevfileComponentExec_passthrough eoBase execEnvOk ["npm", "test"]).2.2⟩
